import Mathlib

/-!
# SBOM-Sentinel: verification of the analysis-engine core

A shallow embedding, in Lean 4, of the parts of the SBOM-Sentinel Go
repository that the specification's claims are about:

* the domain model (`Component`, `SBOM`, `AnalysisResult`),
* the license agent (`internal/analysis`, license analysis),
* the in-memory vector database (`internal/platform/vectordb/memory.go`),
* the security-intelligence harvester and the RAG proactive
  vulnerability agent,
* the SQLite repository (`internal/platform/database/sqlite.go`),
* the REST analyze handler and its summary computation.

Modelling conventions:

* Go strings are Lean `String`s; ASCII-only helpers (`goToLower`,
  `goTrimSpace`, `goContains`) mirror `strings.ToLower`,
  `strings.TrimSpace` and `strings.Contains` on the ASCII inputs the
  program uses.
* Go `float64` is idealised as `ℝ`; vector arithmetic
  (`cosineSimilarity`) therefore lives in `ℝ` and is noncomputable.
* A Go `map` is modelled as a keyed list; its unspecified iteration
  order is made explicit: functions that iterate over a map take the
  enumeration order as a parameter, quantified over permutations of the
  canonical entry list.
* Fallible Go functions returning `error` are modelled with
  `Except String`.
-/

namespace SbomSentinel

/-! ## Domain model (internal/core) -/

/-- A software component inside an SBOM (internal/core Component). -/
structure Component where
  name : String
  version : String
  purl : String
  license : String
deriving DecidableEq, Repr

/-- A normalized SBOM document (internal/core SBOM).  Go
`map[string]string` metadata is modelled as a keyed association list. -/
structure SBOM where
  id : String
  name : String
  components : List Component
  metadata : List (String × String)
deriving DecidableEq, Repr

/-- One finding produced by an agent (internal/core AnalysisResult).
Severity is a plain string in the source ("Low" … "Critical"). -/
structure AnalysisResult where
  agentName : String
  finding : String
  severity : String
deriving DecidableEq, Repr

/-! ## ASCII string helpers mirroring the Go standard library -/

/-- Go `unicode.IsSpace` restricted to the ASCII whitespace that can
occur in the program's inputs. -/
def isSpaceChar (c : Char) : Bool :=
  c = ' ' || c = '\t' || c = '\n' || c = '\r'

/-- Go `strings.TrimSpace` (ASCII fragment). -/
def goTrimSpace (s : String) : String :=
  ⟨((s.data.dropWhile isSpaceChar).reverse.dropWhile isSpaceChar).reverse⟩

/-- Go `strings.ToLower` (ASCII fragment): lower-case every character. -/
def goToLower (s : String) : String :=
  ⟨s.data.map Char.toLower⟩

/-- Test whether `pat` occurs as a contiguous run at the head of `s`. -/
def headMatch : List Char → List Char → Bool
  | [], _ => true
  | _ :: _, [] => false
  | a :: as, b :: bs => a == b && headMatch as bs

/-- Test whether `pat` occurs as a contiguous run somewhere in `s`. -/
def occursIn (pat : List Char) : List Char → Bool
  | [] => pat.isEmpty
  | c :: rest => headMatch pat (c :: rest) || occursIn pat rest

/-- Go `strings.Contains s pat`. -/
def goContains (s pat : String) : Bool :=
  occursIn pat.data s.data

/-! ## License agent (internal/analysis, license analysis)

The watchlist is a Go `map[string]string` literal; we keep it as the
association list in source order.  Functions that range over the map
take the enumeration order as an explicit parameter because Go map
iteration order is unspecified. -/

/-- The `highRiskLicenses` map literal of `NewLicenseAgent`, in source
order. -/
def highRiskLicenses : List (String × String) :=
  [("AGPL-3.0-only", "GNU Affero General Public License v3.0 only"),
   ("AGPL-3.0-or-later", "GNU Affero General Public License v3.0 or later"),
   ("GPL-2.0-only", "GNU General Public License v2.0 only"),
   ("GPL-2.0-or-later", "GNU General Public License v2.0 or later"),
   ("GPL-3.0-only", "GNU General Public License v3.0 only"),
   ("GPL-3.0-or-later", "GNU General Public License v3.0 or later"),
   ("LGPL-2.1-only", "GNU Lesser General Public License v2.1 only"),
   ("LGPL-2.1-or-later", "GNU Lesser General Public License v2.1 or later"),
   ("LGPL-3.0-only", "GNU Lesser General Public License v3.0 only"),
   ("LGPL-3.0-or-later", "GNU Lesser General Public License v3.0 or later"),
   ("EUPL-1.1", "European Union Public License 1.1"),
   ("EUPL-1.2", "European Union Public License 1.2"),
   ("CDDL-1.0", "Common Development and Distribution License 1.0"),
   ("CDDL-1.1", "Common Development and Distribution License 1.1"),
   ("EPL-1.0", "Eclipse Public License 1.0"),
   ("EPL-2.0", "Eclipse Public License 2.0"),
   ("MPL-1.1", "Mozilla Public License 1.1"),
   ("MPL-2.0", "Mozilla Public License 2.0"),
   ("OSL-3.0", "Open Software License 3.0"),
   ("QPL-1.0", "Q Public License 1.0"),
   ("Sleepycat", "Sleepycat License")]

/-- The license agent helper `extractVersionNumber`: first recognized
version token, by substring check. -/
def extractVersionNumber (license : String) : String :=
  if goContains license "3.0" then "3.0"
  else if goContains license "2.1" then "2.1"
  else if goContains license "2.0" then "2.0"
  else if goContains license "1.1" then "1.1"
  else if goContains license "1.0" then "1.0"
  else ""

/-- The body of the range loop of `isHighRiskLicense` for one map entry
`e` against the lower-cased candidate `lower`: case-insensitive exact
match, then the gpl / agpl / lgpl shortened-form checks. -/
def licenseEntryMatches (lower : String) (e : String × String) : Bool :=
  goToLower e.1 == lower ||
  (goContains lower "gpl" && goContains (goToLower e.1) "gpl" &&
    extractVersionNumber lower == extractVersionNumber (goToLower e.1)) ||
  (goContains lower "agpl" && goContains (goToLower e.1) "agpl" &&
    extractVersionNumber lower == extractVersionNumber (goToLower e.1)) ||
  (goContains lower "lgpl" && goContains (goToLower e.1) "lgpl" &&
    extractVersionNumber lower == extractVersionNumber (goToLower e.1))

/-- The matcher `LicenseAgent.isHighRiskLicense`.  `order` is the enumeration order
of the `highRiskLicenses` map (Go map iteration order is unspecified);
the exact-key lookup comes first, then the range loop returns the
description of the first entry that matches. -/
def isHighRiskLicense (order : List (String × String)) (license : String) :
    Option String :=
  match order.find? (fun e => e.1 == goTrimSpace license) with
  | some e => some e.2
  | none =>
      order.findSome? (fun e =>
        if licenseEntryMatches (goToLower (goTrimSpace license)) e then
          some e.2
        else none)

/-- The mapping `LicenseAgent.determineSeverity`. -/
def determineSeverity (license : String) : String :=
  let lower := goToLower license
  if goContains lower "agpl" then "Critical"
  else if goContains lower "gpl" && !goContains lower "lgpl" then "High"
  else if goContains lower "lgpl" || goContains lower "mpl" ||
          goContains lower "epl" || goContains lower "eupl" ||
          goContains lower "cddl" then "Medium"
  else "High"

/-- The severity table of spec §4.3.1, written from the spec's words
and read top-down; family membership is the lower-cased substring test
the matching algorithm of the spec prescribes.  Compared against the
source-derived `determineSeverity` for claim C6. -/
def specLicenseSeverity (license : String) : String :=
  if goContains (goToLower license) "agpl" then "Critical"
  else if goContains (goToLower license) "gpl" &&
      !goContains (goToLower license) "lgpl" then "High"
  else if goContains (goToLower license) "lgpl" ||
      goContains (goToLower license) "mpl" ||
      goContains (goToLower license) "epl" ||
      goContains (goToLower license) "eupl" ||
      goContains (goToLower license) "cddl" then "Medium"
  else "High"

/-- The finding message built by `LicenseAgent.Analyze`. -/
def licenseFindingText (c : Component) (description : String) : String :=
  "Component \x27" ++ c.name ++ "\x27 (v" ++ c.version ++
    ") uses high-risk copyleft license \x27" ++ c.license ++ "\x27 (" ++
    description ++
    "). This may require source code disclosure or impose other compliance obligations."

/-- The per-component step of `LicenseAgent.Analyze`: skip empty
licenses, otherwise report the first watchlist hit. -/
def licenseCheckComponent (order : List (String × String)) (c : Component) :
    Option AnalysisResult :=
  if c.license = "" then none
  else
    match isHighRiskLicense order c.license with
    | some description =>
        some ⟨"License Agent", licenseFindingText c description,
          determineSeverity c.license⟩
    | none => none

/-- The loop of `LicenseAgent.Analyze` over the SBOM's components (it returns a nil
error unconditionally, so the embedding returns the findings list). -/
def licenseAnalyze (order : List (String × String))
    (components : List Component) : List AnalysisResult :=
  components.filterMap (licenseCheckComponent order)

/-! ## In-memory vector database (internal/platform/vectordb/memory.go)

Go `float64` is idealised as `ℝ`.  The `documents` map is modelled as a
keyed list (all states reachable through `vdbAdd` have pairwise distinct
ids, mirroring Go map keys). -/

/-- A document stored in the vector database (vectordb.Document).  The
`map[string]interface{}` metadata only ever holds strings in this
program. -/
structure VDocument where
  id : String
  text : String
  vector : List ℝ
  metadata : List (String × String)

/-- A search result with similarity score (vectordb.SearchResult). -/
structure VSearchResult where
  document : VDocument
  similarity : ℝ

/-- The operation `MemoryVectorDB.Add`: reject empty id or empty vector, otherwise
store under the id (a Go map assignment: replace if the key exists,
insert otherwise). -/
def vdbAdd (db : List VDocument) (d : VDocument) :
    Except String (List VDocument) :=
  if d.id = "" then .error "document ID cannot be empty"
  else if d.vector.length = 0 then .error "document vector cannot be empty"
  else .ok (if db.any (fun x => x.id == d.id) then
      db.map (fun x => if x.id == d.id then d else x)
    else db ++ [d])

/-- The operation `MemoryVectorDB.Get`. -/
def vdbGet (db : List VDocument) (id : String) : Option VDocument :=
  db.find? (fun x => x.id == id)

/-- The operation `MemoryVectorDB.Size`. -/
def vdbSize (db : List VDocument) : Nat :=
  db.length

/-- Sum of pairwise products over the common indices (the loop body of
`cosineSimilarity` accumulating `dotProduct`). -/
def dotProduct (a b : List ℝ) : ℝ :=
  (List.zipWith (· * ·) a b).sum

/-- The function `cosineSimilarity`: 0 on mismatched lengths, 0 when either norm is
zero, otherwise the cosine of the two vectors. -/
noncomputable def cosineSimilarity (a b : List ℝ) : ℝ :=
  if a.length ≠ b.length then 0
  else if dotProduct a a = 0 ∨ dotProduct b b = 0 then 0
  else dotProduct a b / (Real.sqrt (dotProduct a a) * Real.sqrt (dotProduct b b))

/-- The comparator of `MemoryVectorDB.Search`'s `sort.Slice` call:
similarity descending. -/
def bySimilarityDesc (x y : VSearchResult) : Prop :=
  y.similarity ≤ x.similarity

noncomputable instance : DecidableRel bySimilarityDesc :=
  fun x y => inferInstanceAs (Decidable (y.similarity ≤ x.similarity))

instance : IsTotal VSearchResult bySimilarityDesc :=
  ⟨fun x y => (le_total y.similarity x.similarity).elim Or.inl Or.inr⟩

instance : IsTrans VSearchResult bySimilarityDesc :=
  ⟨fun _ _ _ h h2 => le_trans h2 h⟩

/-- The operation `MemoryVectorDB.Search`: reject an empty query; score every stored
document of matching dimensionality; sort by similarity descending and
return the top `k`.  The source sorts with the non-stable `sort.Slice`;
any order that sorts the scored list is a faithful outcome, and the
embedding picks insertion sort. -/
noncomputable def vdbSearch (db : List VDocument) (queryVector : List ℝ)
    (k : Nat) : Except String (List VSearchResult) :=
  if queryVector.length = 0 then .error "query vector cannot be empty"
  else
    let results := (db.filter
        (fun d => d.vector.length == queryVector.length)).map
      (fun d => ⟨d, cosineSimilarity queryVector d.vector⟩)
    .ok ((List.insertionSort bySimilarityDesc results).take k)

/-! ## Harvester (internal/platform/vectordb, HarvestMockData) -/

/-- Mock security intelligence record (vectordb.SecurityIntelligence). -/
structure SecurityIntelligence where
  id : String
  title : String
  description : String
  component : String
  version : String
  severity : String
  source : String
  date : String

/-- The fixed mock corpus of `generateMockSecurityData`. -/
def mockSecurityData : List SecurityIntelligence :=
  [⟨"vuln-001", "Deserialization Vulnerability in acme-serializer",
    "A new deserialization issue is being discussed for the \x27acme-serializer\x27 library version 1.2.3, allowing potential remote code execution. Researchers have identified unsafe deserialization patterns that could be exploited.",
    "acme-serializer", "1.2.3", "Critical", "Security Mailing List", "2024-01-15"⟩,
   ⟨"vuln-002", "Memory Leak in data-processor",
    "Security researchers are reporting memory leak issues in data-processor version 2.1.0 that could lead to denial of service attacks. The leak occurs during heavy processing workloads.",
    "data-processor", "2.1.0", "High", "Research Blog", "2024-01-14"⟩,
   ⟨"vuln-003", "SQL Injection in database-connector",
    "A potential SQL injection vulnerability has been identified in database-connector library version 3.4.1. The issue affects parameterized query handling in certain edge cases.",
    "database-connector", "3.4.1", "High", "Security Forum", "2024-01-13"⟩,
   ⟨"vuln-004", "Path Traversal in file-manager",
    "Discussions on security forums indicate a path traversal vulnerability in file-manager version 1.8.0 that allows access to files outside the intended directory structure.",
    "file-manager", "1.8.0", "Medium", "Security Forum", "2024-01-12"⟩,
   ⟨"vuln-005", "XSS Vulnerability in web-utils",
    "Cross-site scripting vulnerability discovered in web-utils version 2.3.4. The issue affects input sanitization functions and could allow malicious script execution.",
    "web-utils", "2.3.4", "Medium", "Security Blog", "2024-01-11"⟩,
   ⟨"vuln-006", "Privilege Escalation in auth-service",
    "Research indicates a privilege escalation issue in auth-service library version 4.2.1 where normal users can gain administrative privileges through token manipulation.",
    "auth-service", "4.2.1", "Critical", "Research Paper", "2024-01-10"⟩,
   ⟨"vuln-007", "Buffer Overflow in image-processor",
    "Security mailing lists are discussing a buffer overflow vulnerability in image-processor version 1.5.2 when processing specially crafted image files.",
    "image-processor", "1.5.2", "High", "Security Mailing List", "2024-01-09"⟩,
   ⟨"vuln-008", "Information Disclosure in logger-util",
    "Researchers have identified an information disclosure vulnerability in logger-util version 0.9.1 that may leak sensitive data in log files under certain configurations.",
    "logger-util", "0.9.1", "Low", "Research Blog", "2024-01-08"⟩]

/-- The `fmt.Sprintf` document text of `HarvestMockData`. -/
def intelDocText (i : SecurityIntelligence) : String :=
  "Title: " ++ i.title ++ ". Description: " ++ i.description ++
    ". Component: " ++ i.component ++ ", Version: " ++ i.version ++
    ". Severity: " ++ i.severity ++ ". Source: " ++ i.source ++ "."

/-- The vector document inserted by `HarvestMockData` for one record. -/
def intelDocument (i : SecurityIntelligence) (embedding : List ℝ) : VDocument :=
  ⟨i.id, intelDocText i, embedding,
   [("component", i.component), ("version", i.version),
    ("severity", i.severity), ("source", i.source),
    ("date", i.date), ("title", i.title)]⟩

/-- The harvester entry point `HarvestMockData`.  The embeddings endpoint is abstracted
as the oracle `embed`.  A failed embedding, and a failed `Add`, are
logged and skipped; the function returns a nil error unconditionally. -/
def harvestMockData (embed : String → Except String (List ℝ))
    (db : List VDocument) : Except String (List VDocument) :=
  .ok (mockSecurityData.foldl
    (fun acc i =>
      match embed (intelDocText i) with
      | .error _ => acc
      | .ok embedding =>
          match vdbAdd acc (intelDocument i embedding) with
          | .error _ => acc
          | .ok acc2 => acc2)
    db)

/-! ## RAG proactive vulnerability agent (internal/analysis) -/

/-- The mutable fields of `ProactiveVulnerabilityAgent` that the claims
observe: its private vector database and the `initialized` flag. -/
structure RAGState where
  db : List VDocument
  initialized : Bool

/-- The method initializeSecurityIntelligence of the proactive agent:
delegate to the harvester, wrapping a harvest error. -/
def initSecurityIntelligence (embed : String → Except String (List ℝ))
    (db : List VDocument) : Except String (List VDocument) :=
  match harvestMockData embed db with
  | .error e => .error ("failed to harvest security data: " ++ e)
  | .ok db2 => .ok db2

/-- The numbered security-intelligence context block built by
`analyzeWithLLM`. -/
def ragContextText (docs : List VDocument) : String :=
  "Security Intelligence Context:\n" ++
    (String.join ((docs.enum.map
      (fun p => toString (p.1 + 1) ++ ". " ++ p.2.text ++ "\n"))))

/-- The generation prompt of `analyzeWithLLM`. -/
def ragPrompt (c : Component) (docs : List VDocument) : String :=
  "Based on the security intelligence context provided, analyze if the component \x27" ++
    c.name ++ "\x27 version \x27" ++ c.version ++
    "\x27 has any potential security vulnerabilities or risks.\n\n" ++
    ragContextText docs ++ "\n\nComponent to analyze: " ++ c.name ++
    " (version " ++ c.version ++ ")\n\nInstructions:\n" ++
    "1. Look for any mentions of this specific component or similar components\n" ++
    "2. Consider version compatibility and potential security issues\n" ++
    "3. If you find relevant security concerns, summarize them in one sentence\n" ++
    "4. If no relevant security issues are found, respond with \"No relevant security concerns identified\"\n\nResponse:"

/-- The response filter of `queryLLM`: a trimmed reply containing one of
the three "no concerns" phrases becomes the empty finding. -/
def ragFilterResponse (response : String) : String :=
  let trimmed := goTrimSpace response
  if goContains (goToLower trimmed) "no relevant security concerns" ||
      goContains (goToLower trimmed) "no security issues" ||
      goContains (goToLower trimmed) "no vulnerabilities" then ""
  else trimmed

/-- The per-component loop body of `ProactiveVulnerabilityAgent.Analyze`
(after initialization): skip unnamed or unversioned components, embed
the query, take the top-3 similar documents, keep those above the 0.3
similarity threshold, and let the LLM produce a finding; every failure
skips the component. -/
noncomputable def ragAnalyzeComponent (embed : String → Except String (List ℝ))
    (llm : String → Except String String) (db : List VDocument)
    (c : Component) : Option AnalysisResult :=
  if c.name = "" || c.version = "" then none
  else
    let componentQuery := "component " ++ c.name ++ " version " ++ c.version ++
      " vulnerability security issue"
    match embed componentQuery with
    | .error _ => none
    | .ok queryEmbedding =>
        match vdbSearch db queryEmbedding 3 with
        | .error _ => none
        | .ok searchResults =>
            let relevantDocs := (searchResults.filter
              (fun r => (0.3 : ℝ) < r.similarity)).map (fun r => r.document)
            if relevantDocs.length = 0 then none
            else
              match llm (ragPrompt c relevantDocs) with
              | .error _ => none
              | .ok response =>
                  let finding := ragFilterResponse response
                  if finding = "" then none
                  else some ⟨"Proactive Vulnerability Agent", finding, "Medium"⟩

/-- The method `ProactiveVulnerabilityAgent.Analyze`: build the vector
database on the first call (guarded by the `initialized` flag), then
scan the components.  `embed` and `llm` abstract the two Ollama
endpoints. -/
noncomputable def proactiveAnalyze (embed : String → Except String (List ℝ))
    (llm : String → Except String String) (st : RAGState) (sbom : SBOM) :
    Except String (List AnalysisResult × RAGState) :=
  match (if st.initialized then .ok st.db
         else initSecurityIntelligence embed st.db :
         Except String (List VDocument)) with
  | .error e => .error ("failed to initialize security intelligence: " ++ e)
  | .ok db =>
      .ok (sbom.components.filterMap (ragAnalyzeComponent embed llm db),
        ⟨db, true⟩)

/-! ## SQLite repository (internal/platform/database/sqlite.go)

The `sboms` table has `id` as primary key; a table is a list of rows and
every state reachable through `sqliteStore` keeps ids pairwise distinct.
JSON (de)serialisation of components and metadata round-trips, so rows
hold the domain values directly.  Timestamps are opaque `Nat`s. -/

/-- One row of the `sboms` table. -/
structure SBOMRow where
  id : String
  name : String
  components : List Component
  metadata : List (String × String)
  createdAt : Nat
  updatedAt : Nat
deriving DecidableEq, Repr

/-- The operation `SQLiteRepository.Store`: SELECT the id; on no row, INSERT a fresh
row, otherwise UPDATE name, components, metadata and updated_at of the
rows with that id. -/
def sqliteStore (table : List SBOMRow) (sbom : SBOM) (now : Nat) :
    List SBOMRow :=
  if table.any (fun r => r.id == sbom.id) then
    table.map (fun r =>
      if r.id == sbom.id then
        ⟨r.id, sbom.name, sbom.components, sbom.metadata, r.createdAt, now⟩
      else r)
  else
    table ++ [⟨sbom.id, sbom.name, sbom.components, sbom.metadata, now, now⟩]

/-- The operation `SQLiteRepository.FindByID`: the first row with the id, decoded back
to a domain SBOM; `none` models the nil-SBOM "not found" result. -/
def sqliteFindByID (table : List SBOMRow) (id : String) : Option SBOM :=
  (table.find? (fun r => r.id == id)).map
    (fun r => ⟨r.id, r.name, r.components, r.metadata⟩)

/-! ## CycloneDX ingestion (internal/ingestion/cyclonedx.go)

The embedding starts from a decoded `cycloneDXDocument`; Go's JSON
decoder fills absent fields with zero values (empty strings, nil
pointers, nil slices), which the structures below represent directly.
Fields the parser never reads (tools, authors, suppliers, bom-refs,
component properties) are omitted. -/

/-- The JSON shape `cycloneDXLicenseChoice`. -/
structure CDXLicenseChoice where
  id : String
  name : String
  text : String
  url : String
deriving DecidableEq, Repr

/-- The JSON shape `cycloneDXLicense` (`license` is a pointer: `none` when absent). -/
structure CDXLicense where
  license : Option CDXLicenseChoice
deriving DecidableEq, Repr

/-- The JSON shape `cycloneDXComponent` (the fields `Parse` reads). -/
structure CDXComponent where
  name : String
  version : String
  purl : String
  licenses : List CDXLicense
deriving DecidableEq, Repr

/-- The JSON shape `cycloneDXProperty`. -/
structure CDXProperty where
  name : String
  value : String
deriving DecidableEq, Repr

/-- The JSON shape `cycloneDXMetadata` (the fields `Parse` reads). -/
structure CDXMetadata where
  timestamp : String
  component : Option CDXComponent
deriving DecidableEq, Repr

/-- The JSON shape `cycloneDXDocument` (the fields `Parse` reads). -/
structure CDXDocument where
  bomFormat : String
  specVersion : String
  serialNumber : String
  metadata : Option CDXMetadata
  components : List CDXComponent
  properties : List CDXProperty
deriving DecidableEq, Repr

/-- Assignment to a Go `map[string]string`: replace the value of an
existing key, append a new key. -/
def mapSet (m : List (String × String)) (k v : String) :
    List (String × String) :=
  if m.any (fun e => e.1 == k) then
    m.map (fun e => if e.1 == k then (k, v) else e)
  else m ++ [(k, v)]

/-- The license extraction of `Parse`: `licenses[0].license.id` if
non-empty, else `licenses[0].license.name`, else empty. -/
def cdxComponentLicense (c : CDXComponent) : String :=
  match c.licenses with
  | [] => ""
  | l :: _ =>
      match l.license with
      | none => ""
      | some choice =>
          if choice.id ≠ "" then choice.id
          else if choice.name ≠ "" then choice.name
          else ""

/-- The parser `CycloneDXParser.Parse` after JSON decoding: validate `bomFormat`,
then map the document onto the domain model. -/
def cyclonedxParse (doc : CDXDocument) : Except String SBOM :=
  if doc.bomFormat ≠ "CycloneDX" then
    .error ("invalid BOM format: expected \x27CycloneDX\x27, got \x27" ++
      doc.bomFormat ++ "\x27")
  else
    let name0 :=
      match doc.metadata with
      | some m => match m.component with
                  | some c => c.name
                  | none => ""
      | none => ""
    let name := if name0 = "" then "Unnamed SBOM" else name0
    let md0 := mapSet (mapSet [] "bomFormat" doc.bomFormat)
      "specVersion" doc.specVersion
    let md1 :=
      match doc.metadata with
      | some m => if m.timestamp ≠ "" then mapSet md0 "timestamp" m.timestamp
                  else md0
      | none => md0
    let metadata := doc.properties.foldl (fun m p => mapSet m p.name p.value) md1
    let components := doc.components.map
      (fun c => ⟨c.name, c.version, c.purl, cdxComponentLicense c⟩)
    .ok ⟨doc.serialNumber, name, components, metadata⟩

/-! ## REST analyze handler (internal/transport/rest, AnalyzeSBOMHandler)

The handler reads two query parameters (`enable-ai-health-check` and
`enable-proactive-scan`), runs the license agent, optionally the
dependency-health and proactive agents (their outcomes abstracted as
`Except` oracles, successes contributing findings, failures only a log
line), records `agents_run` in that order, and builds the summary. -/

/-- Go query lookup r.URL.Query().Get(key): first value of the key, or empty. -/
def queryGet (query : List (String × String)) (key : String) : String :=
  match query.find? (fun e => e.1 == key) with
  | some e => e.2
  | none => ""

/-- The `summary` part of the analysis response. -/
structure AnalysisSummary where
  totalFindings : Nat
  findingsBySeverity : List (String × Nat)
  agentsRun : List String
deriving DecidableEq, Repr

/-- The analysis response produced by the handler. -/
structure AnalysisResponse where
  sbomId : String
  results : List AnalysisResult
  summary : AnalysisSummary
deriving DecidableEq, Repr

/-- Go map increment findingsBySeverity[severity]++ on the keyed-list model of the Go
map: bump the entry of the key, or add the key with count 1. -/
def bumpCount : List (String × Nat) → String → List (String × Nat)
  | [], k => [(k, 1)]
  | e :: rest, k =>
      if e.1 = k then (e.1, e.2 + 1) :: rest else e :: bumpCount rest k

/-- The helper `generateAnalysisSummary`. -/
def generateAnalysisSummary (results : List AnalysisResult)
    (agentsRun : List String) : AnalysisSummary :=
  ⟨results.length,
   results.foldl (fun m r => bumpCount m r.severity) [],
   agentsRun⟩

/-- The agent-running section of `AnalyzeSBOMHandler` (lines 185-236 of
the handler), given the stored SBOM, the map enumeration order of the
license watchlist, and the two optional agents' outcomes.  The handler
parses no `enable-vuln-scan` parameter and never schedules the
Vulnerability Scanner. -/
def analyzeSBOMCore (query : List (String × String))
    (order : List (String × String)) (sbom : SBOM)
    (healthOutcome proactiveOutcome : Except String (List AnalysisResult)) :
    AnalysisResponse :=
  let enableAIHealthCheck := queryGet query "enable-ai-health-check" == "true"
  let enableProactiveScan := queryGet query "enable-proactive-scan" == "true"
  let licenseResults := licenseAnalyze order sbom.components
  let afterHealth := licenseResults ++
    (if enableAIHealthCheck then
      match healthOutcome with
      | .ok rs => rs
      | .error _ => []
    else [])
  let allResults := afterHealth ++
    (if enableProactiveScan then
      match proactiveOutcome with
      | .ok rs => rs
      | .error _ => []
    else [])
  let agentsRun := ["License Agent"] ++
    (if enableAIHealthCheck then ["Dependency Health Agent"] else []) ++
    (if enableProactiveScan then ["Proactive Vulnerability Agent"] else [])
  ⟨sbom.id, allResults, generateAnalysisSummary allResults agentsRun⟩

/-! ## Concrete fixtures used by counterexamples and witnesses -/

/-- A stored vector document of dimensionality 1. -/
def docDim1 : VDocument :=
  ⟨"doc-a", "alpha", [1], []⟩

/-- A vector document of dimensionality 2 (different from `docDim1`). -/
def docDim2 : VDocument :=
  ⟨"doc-b", "beta", [1, 2], []⟩

/-- A replacement for `docDim1` carrying the same id. -/
def docDim1Alt : VDocument :=
  ⟨"doc-a", "alpha-updated", [2], []⟩

/-- An embeddings oracle standing for an unreachable Ollama endpoint:
every request fails. -/
def embedFail : String → Except String (List ℝ) :=
  fun _ => .error "failed to send request to Ollama: connection refused"

/-- A generation oracle standing for an unreachable Ollama endpoint. -/
def llmFail : String → Except String String :=
  fun _ => .error "failed to send request to Ollama: connection refused"

/-- An SBOM with no components. -/
def sbomNoComponents : SBOM :=
  ⟨"sbom-empty", "Empty SBOM", [], []⟩

/-- A component carrying the shortened license form "GPL-3.0". -/
def gplShortComponent : Component :=
  ⟨"copyleft-lib", "2.1.0", "", "GPL-3.0"⟩

/-- A component carrying the exact watchlist license "AGPL-3.0-only". -/
def agplComponent : Component :=
  ⟨"agpl-lib", "1.0.0", "", "AGPL-3.0-only"⟩

/-- A CycloneDX document whose `serialNumber` field is absent (the Go
JSON decoder leaves it as the empty string). -/
def cdxNoSerial : CDXDocument :=
  ⟨"CycloneDX", "1.4", "", none, [], []⟩

/-- A CycloneDX document with a populated `serialNumber`. -/
def cdxWithSerial : CDXDocument :=
  ⟨"CycloneDX", "1.5", "urn:uuid:12345678-1234-1234-1234-123456789012",
   none, [], []⟩

/-- The query string of an analyze request that selects every optional
agent: `?enable-ai-health-check=true&enable-proactive-scan=true&enable-vuln-scan=true`. -/
def allAgentsQuery : List (String × String) :=
  [("enable-ai-health-check", "true"), ("enable-proactive-scan", "true"),
   ("enable-vuln-scan", "true")]

/-- A first SBOM stored under id "sbom-1". -/
def sbomV1 : SBOM :=
  ⟨"sbom-1", "first upload", [⟨"express", "4.18.2", "", "MIT"⟩], []⟩

/-- A second SBOM re-submitted under the same id "sbom-1". -/
def sbomV2 : SBOM :=
  ⟨"sbom-1", "second upload", [gplShortComponent, agplComponent],
   [("bomFormat", "CycloneDX")]⟩

/-- Observation of a Go call that returned a non-nil error. -/
def exceptFailed {ε α : Type} : Except ε α → Bool
  | .error _ => true
  | .ok _ => false

/-! # Theorems -/

/-! ## C2 — vector-index add: empty-id / empty-vector rejection, and the
claimed dimensionality check -/

/-- C2 counterexample: after a successful add of `docDim1` (vector
length 1), adding `docDim2` (vector length 2) is NOT rejected with a
dimension error — it succeeds and grows the index — refuting the claim
that adds of differing dimensionality are rejected with the size left
unchanged.  `MemoryVectorDB.Add` performs no dimensionality check. -/
theorem vdbAdd_dimension_mismatch_accepted :
    vdbAdd [] docDim1 = .ok [docDim1] ∧
    vdbAdd [docDim1] docDim2 = .ok [docDim1, docDim2] ∧
    vdbSize [docDim1, docDim2] ≠ vdbSize [docDim1] :=
  ⟨rfl, rfl, by decide⟩

/-- C2 amended: `add` rejects a document exactly when its id is empty or
its vector is empty; no dimensionality check is performed at insertion
(documents of mismatched dimensionality are accepted, and are instead
excluded from scoring at search time). -/
theorem vdbAdd_error_iff (db : List VDocument) (d : VDocument) :
    exceptFailed (vdbAdd db d) = true ↔ d.id = "" ∨ d.vector.length = 0 := by
  unfold vdbAdd
  split_ifs with h1 h2 <;> simp_all [exceptFailed]

/-! ## C10 — vector-index add is an upsert on duplicate ids -/

/-- Helper: replacing the documents that carry `d.id` makes `d` the
first (and only) hit of a subsequent lookup for `d.id`, provided some
stored document carried that id. -/
theorem find?_replace_of_any {db : List VDocument} {d : VDocument}
    (h : db.any (fun x => x.id == d.id) = true) :
    (db.map (fun x => if x.id == d.id then d else x)).find?
      (fun x => x.id == d.id) = some d := by
  induction db with
  | nil => simp at h
  | cons x rest ih =>
      simp only [List.any_cons, Bool.or_eq_true] at h
      by_cases hx : (x.id == d.id) = true
      · simp only [List.map_cons, if_pos hx]
        have hd : (fun y : VDocument => y.id == d.id) d = true :=
          beq_self_eq_true d.id
        exact List.find?_cons_of_pos _ hd
      · simp only [List.map_cons, if_neg hx]
        rw [List.find?_cons_of_neg
          (p := fun y : VDocument => y.id == d.id) _ hx]
        exact ih (h.resolve_left hx)

/-- C10: adding a well-formed document whose id is already stored
succeeds, replaces the stored document (a subsequent get returns the new
document), and leaves the index size unchanged. -/
theorem vdbAdd_duplicate_id_replaces (db : List VDocument) (d : VDocument)
    (hid : ¬ d.id = "") (hvec : ¬ d.vector.length = 0)
    (hdup : db.any (fun x => x.id == d.id) = true) :
    vdbAdd db d = .ok (db.map (fun x => if x.id == d.id then d else x)) ∧
    vdbGet (db.map (fun x => if x.id == d.id then d else x)) d.id = some d ∧
    vdbSize (db.map (fun x => if x.id == d.id then d else x)) = vdbSize db := by
  refine ⟨?_, ?_, ?_⟩
  · unfold vdbAdd
    rw [if_neg hid, if_neg hvec, if_pos hdup]
  · exact find?_replace_of_any hdup
  · exact db.length_map _

/-- Witness for C10 at a concrete index: `docDim1Alt` re-uses the id of
the stored `docDim1`. -/
theorem vdbAdd_duplicate_id_replaces_witness :
    (¬ docDim1Alt.id = "") ∧ (¬ docDim1Alt.vector.length = 0) ∧
    [docDim1].any (fun x => x.id == docDim1Alt.id) = true ∧
    (vdbAdd [docDim1] docDim1Alt =
        .ok ([docDim1].map
          (fun x => if x.id == docDim1Alt.id then docDim1Alt else x)) ∧
      vdbGet ([docDim1].map
          (fun x => if x.id == docDim1Alt.id then docDim1Alt else x))
        docDim1Alt.id = some docDim1Alt ∧
      vdbSize ([docDim1].map
          (fun x => if x.id == docDim1Alt.id then docDim1Alt else x)) =
        vdbSize [docDim1]) :=
  ⟨by decide, by decide, by decide,
   vdbAdd_duplicate_id_replaces [docDim1] docDim1Alt (by decide) (by decide)
     (by decide)⟩

/-! ## C4 — SBOM id from the CycloneDX serial number -/

/-- C4 counterexample: a valid CycloneDX document without a
`serialNumber` parses successfully into an SBOM whose id is the EMPTY
string — the parser does not generate a fresh identifier. -/
theorem cyclonedxParse_missing_serial_empty_id :
    cyclonedxParse cdxNoSerial =
      .ok ⟨"", "Unnamed SBOM", [],
        [("bomFormat", "CycloneDX"), ("specVersion", "1.4")]⟩ := rfl

/-- C4 amended: for every accepted CycloneDX document the produced
SBOM's id equals the document's `serialNumber` verbatim — including the
empty string when the field is absent or empty (no fresh identifier is
ever generated). -/
theorem cyclonedxParse_id_from_serial (doc : CDXDocument)
    (h : doc.bomFormat = "CycloneDX") :
    ∃ s, cyclonedxParse doc = .ok s ∧ s.id = doc.serialNumber := by
  unfold cyclonedxParse
  rw [if_neg (by simp [h])]
  exact ⟨_, rfl, rfl⟩

/-- Witness for the amended C4 at a document with a populated serial
number. -/
theorem cyclonedxParse_id_from_serial_witness :
    cdxWithSerial.bomFormat = "CycloneDX" ∧
    ∃ s, cyclonedxParse cdxWithSerial = .ok s ∧
      s.id = cdxWithSerial.serialNumber :=
  ⟨rfl, cyclonedxParse_id_from_serial cdxWithSerial rfl⟩

/-! ## C1 — agents_run under an all-agents selection -/

/-- C1: with every optional agent selected
(`enable-ai-health-check=true&enable-proactive-scan=true&enable-vuln-scan=true`),
the analyze handler's `summary.agents_run` is exactly the THREE names
`["License Agent", "Dependency Health Agent", "Proactive Vulnerability
Agent"]`, for every stored SBOM and regardless of the optional agents'
outcomes: the handler never reads `enable-vuln-scan` and never runs the
Vulnerability Scanner, contradicting the claimed four-element list (and
the repository's own handlers_test.go, which asserts that all four
agents appear). -/
theorem analyzeHandler_omits_vulnerability_scanner (sbom : SBOM)
    (healthOutcome proactiveOutcome : Except String (List AnalysisResult)) :
    (analyzeSBOMCore allAgentsQuery highRiskLicenses sbom healthOutcome
        proactiveOutcome).summary.agentsRun =
      ["License Agent", "Dependency Health Agent",
        "Proactive Vulnerability Agent"] ∧
    ["License Agent", "Dependency Health Agent",
        "Proactive Vulnerability Agent"] ≠
      ["License Agent", "Dependency Health Agent",
        "Proactive Vulnerability Agent", "Vulnerability Scanner"] :=
  ⟨rfl, by decide⟩

/-! ## C3 — RAG agent initialization -/

/-- C3 counterexample: with the embeddings endpoint unreachable, the
agent's FIRST analyze call returns no error at all (the harvester
swallows every per-document failure) and completes with the vector index
still EMPTY — refuting "either returns an initialization-failure error
or completes initialization with size > 0". -/
theorem proactiveAnalyze_first_call_empty_index :
    proactiveAnalyze embedFail llmFail ⟨[], false⟩ sbomNoComponents =
      .ok ([], ⟨[], true⟩) ∧
    vdbSize ([] : List VDocument) = 0 :=
  ⟨rfl, rfl⟩

/-- C3 amended: the first analyze call never returns an initialization
error (the harvester reports success even when every document fails to
embed, so the index may be left at size 0), and re-initialization is
skipped on every later call via the `initialized` flag: analyzing from
an initialized state leaves the index exactly as it was. -/
theorem proactiveAnalyze_init_flag (embed : String → Except String (List ℝ))
    (llm : String → Except String String) (st : RAGState) (sbom : SBOM) :
    (∃ out db2, proactiveAnalyze embed llm st sbom = .ok (out, ⟨db2, true⟩)) ∧
    (proactiveAnalyze embed llm ⟨st.db, true⟩ sbom).map
      (fun p => p.2.db) = .ok st.db := by
  obtain ⟨db0, init0⟩ := st
  constructor
  · cases init0
    · exact ⟨_, _, rfl⟩
    · exact ⟨_, _, rfl⟩
  · rfl

/-! ## C7 — summary counts -/

/-- Helper: bumping one severity key raises the total count by one. -/
theorem bumpCount_sum (m : List (String × Nat)) (k : String) :
    ((bumpCount m k).map (fun p => p.2)).sum =
      (m.map (fun p => p.2)).sum + 1 := by
  induction m with
  | nil => simp [bumpCount]
  | cons e rest ih =>
      by_cases he : e.1 = k
      · simp [bumpCount, he]
        omega
      · simp [bumpCount, he, ih]
        omega

/-- Helper: bumping preserves strict positivity of every count. -/
theorem bumpCount_pos (m : List (String × Nat)) (k : String)
    (h : ∀ p ∈ m, 0 < p.2) : ∀ p ∈ bumpCount m k, 0 < p.2 := by
  induction m with
  | nil =>
      intro p hp
      simp [bumpCount] at hp
      simp [hp]
  | cons e rest ih =>
      intro p hp
      by_cases he : e.1 = k
      · simp only [bumpCount, if_pos he] at hp
        rcases List.mem_cons.mp hp with h1 | h1
        · simp [h1]
        · exact h p (List.mem_cons_of_mem _ h1)
      · simp only [bumpCount, if_neg he] at hp
        rcases List.mem_cons.mp hp with h1 | h1
        · exact h p (h1 ▸ List.mem_cons_self _ _)
        · exact ih (fun p2 hp2 => h p2 (List.mem_cons_of_mem _ hp2)) p h1

/-- Helper: folding the severity counter over the findings adds exactly
one count per finding. -/
theorem foldBump_sum (results : List AnalysisResult) :
    ∀ m : List (String × Nat),
      ((results.foldl (fun m r => bumpCount m r.severity) m).map
        (fun p => p.2)).sum = (m.map (fun p => p.2)).sum + results.length := by
  induction results with
  | nil => intro m; simp
  | cons r rest ih =>
      intro m
      simp only [List.foldl_cons, ih, bumpCount_sum, List.length_cons]
      omega

/-- Helper: every count produced by the fold is strictly positive. -/
theorem foldBump_pos (results : List AnalysisResult) :
    ∀ m : List (String × Nat), (∀ p ∈ m, 0 < p.2) →
      ∀ p ∈ results.foldl (fun m r => bumpCount m r.severity) m, 0 < p.2 := by
  induction results with
  | nil => intro m hm; simpa using hm
  | cons r rest ih =>
      intro m hm
      exact ih _ (bumpCount_pos m r.severity hm)

/-- C7: in every generated summary, the severity counts sum to
`total_findings`, which equals the number of results, and no severity
appears with a zero count (zero-count severities are omitted). -/
theorem summary_counts_invariant (results : List AnalysisResult)
    (agents : List String) :
    ((generateAnalysisSummary results agents).findingsBySeverity.map
        (fun p => p.2)).sum =
      (generateAnalysisSummary results agents).totalFindings ∧
    (generateAnalysisSummary results agents).totalFindings = results.length ∧
    ∀ p ∈ (generateAnalysisSummary results agents).findingsBySeverity,
      0 < p.2 := by
  refine ⟨?_, rfl, ?_⟩
  · simpa using foldBump_sum results []
  · exact foldBump_pos results [] (by simp)

/-! ## C9 — the SQLite store is an upsert by id -/

/-- Helper: after a store, looking the SBOM's id up finds exactly the
freshly written name, components and metadata. -/
theorem sqliteFindByID_store (tb : List SBOMRow) (s : SBOM) (t : Nat) :
    sqliteFindByID (sqliteStore tb s t) s.id =
      some ⟨s.id, s.name, s.components, s.metadata⟩ := by
  unfold sqliteFindByID sqliteStore
  by_cases h : tb.any (fun r => r.id == s.id) = true
  · rw [if_pos h]
    induction tb with
    | nil => simp at h
    | cons r rest ih =>
        simp only [List.any_cons, Bool.or_eq_true] at h
        by_cases hr : (r.id == s.id) = true
        · simp only [List.map_cons, if_pos hr]
          rw [List.find?_cons]
          simp [hr, eq_of_beq hr]
        · simp only [List.map_cons, if_neg hr]
          rw [List.find?_cons_of_neg (p := fun y : SBOMRow => y.id == s.id) _ hr]
          exact ih (h.resolve_left hr)
  · rw [if_neg h]
    have hnone : tb.find? (fun r => r.id == s.id) = none := by
      rw [List.find?_eq_none]
      intro x hx
      intro hpx
      exact h (List.any_eq_true.mpr ⟨x, hx, hpx⟩)
    rw [List.find?_append, hnone]
    simp

/-- Helper: a store leaves the stored id present. -/
theorem sqliteStore_any (tb : List SBOMRow) (s : SBOM) (t : Nat) :
    (sqliteStore tb s t).any (fun r => r.id == s.id) = true := by
  unfold sqliteStore
  by_cases h : tb.any (fun r => r.id == s.id) = true
  · rw [if_pos h]
    rcases List.any_eq_true.mp h with ⟨r, hr, hpr⟩
    refine List.any_eq_true.mpr ⟨_, List.mem_map_of_mem _ hr, ?_⟩
    simp only [if_pos hpr]
    exact hpr
  · rw [if_neg h]
    refine List.any_eq_true.mpr ⟨_, List.mem_append_right _ (List.mem_singleton_self _), ?_⟩
    exact beq_self_eq_true s.id

/-- Helper: a store preserves distinctness of the stored ids. -/
theorem sqliteStore_nodup (tb : List SBOMRow) (s : SBOM) (t : Nat)
    (hnd : (tb.map (fun r => r.id)).Nodup) :
    ((sqliteStore tb s t).map (fun r => r.id)).Nodup := by
  unfold sqliteStore
  by_cases h : tb.any (fun r => r.id == s.id) = true
  · rw [if_pos h, List.map_map]
    have hsame :
        ((fun r : SBOMRow => r.id) ∘
          fun r => if r.id == s.id then
            (⟨r.id, s.name, s.components, s.metadata, r.createdAt, t⟩ : SBOMRow)
          else r) = fun r : SBOMRow => r.id := by
      funext r
      by_cases hr : (r.id == s.id) = true
      · simp [Function.comp, hr]
      · simp [Function.comp, hr]
    rw [hsame]
    exact hnd
  · rw [if_neg h, List.map_append]
    have hnotin : s.id ∉ tb.map (fun r => r.id) := by
      intro hmem
      rcases List.mem_map.mp hmem with ⟨r, hr, hid⟩
      exact h (List.any_eq_true.mpr ⟨r, hr, by simp [hid]⟩)
    simp only [List.map_cons, List.map_nil]
    rw [List.nodup_append]
    exact ⟨hnd, List.nodup_singleton _, by
      intro a ha hb
      simp only [List.mem_singleton] at hb
      exact hnotin (hb ▸ ha)⟩

/-- Helper: with distinct ids, a present id occurs on exactly one row. -/
theorem filter_id_length_one (tb : List SBOMRow) (x : String)
    (hnd : (tb.map (fun r => r.id)).Nodup)
    (hmem : tb.any (fun r => r.id == x) = true) :
    (tb.filter (fun r => r.id == x)).length = 1 := by
  induction tb with
  | nil => simp at hmem
  | cons r rest ih =>
      simp only [List.map_cons, List.nodup_cons] at hnd
      simp only [List.any_cons, Bool.or_eq_true] at hmem
      by_cases hr : (r.id == x) = true
      · rw [List.filter_cons, if_pos hr]
        have hrest : rest.filter (fun r2 => r2.id == x) = [] := by
          rw [List.filter_eq_nil_iff]
          intro a ha hpa
          exact hnd.1 (List.mem_map.mpr
            ⟨a, ha, by rw [eq_of_beq hpa, eq_of_beq hr]⟩)
        simp [hrest]
      · rw [List.filter_cons, if_neg hr]
        exact ih hnd.2 (hmem.resolve_left hr)

/-- C9: storing `s1` and then `s2` under the same id leaves exactly one
row carrying that id, and a subsequent get returns the id together with
the name, components and metadata of `s2` (re-submission replaces the
prior version). -/
theorem sqliteStore_upsert (tb : List SBOMRow) (s1 s2 : SBOM) (t1 t2 : Nat)
    (hid : s1.id = s2.id) (hnd : (tb.map (fun r => r.id)).Nodup) :
    ((sqliteStore (sqliteStore tb s1 t1) s2 t2).filter
        (fun r => r.id == s2.id)).length = 1 ∧
    sqliteFindByID (sqliteStore (sqliteStore tb s1 t1) s2 t2) s2.id =
      some ⟨s2.id, s2.name, s2.components, s2.metadata⟩ := by
  constructor
  · exact filter_id_length_one _ _
      (sqliteStore_nodup _ s2 t2 (sqliteStore_nodup _ s1 t1 hnd))
      (sqliteStore_any _ s2 t2)
  · exact sqliteFindByID_store _ s2 t2

/-- Witness for C9: the two concrete SBOM versions `sbomV1` and `sbomV2`
share the id "sbom-1" and are stored into an empty table. -/
theorem sqliteStore_upsert_witness :
    sbomV1.id = sbomV2.id ∧
    (([] : List SBOMRow).map (fun r => r.id)).Nodup ∧
    (((sqliteStore (sqliteStore [] sbomV1 0) sbomV2 1).filter
        (fun r => r.id == sbomV2.id)).length = 1 ∧
      sqliteFindByID (sqliteStore (sqliteStore [] sbomV1 0) sbomV2 1)
          sbomV2.id =
        some ⟨sbomV2.id, sbomV2.name, sbomV2.components, sbomV2.metadata⟩) :=
  ⟨rfl, by simp,
   sqliteStore_upsert [] sbomV1 sbomV2 0 1 rfl (by simp)⟩

/-! ## C8 — vector search: top-k, descending order, dimension filter,
cosine scores -/

/-- C8: for every index state, non-empty query and every k, search
succeeds and returns at most k results, sorted by similarity descending;
every returned result is a stored document whose dimensionality equals
the query's (mismatched documents are excluded from scoring), its
similarity is the cosine similarity of the query and the document
vector, and that similarity is 0 whenever either vector has zero norm. -/
theorem vdbSearch_spec (db : List VDocument) (q : List ℝ) (k : Nat)
    (hq : ¬ q.length = 0) :
    ∃ rs, vdbSearch db q k = .ok rs ∧
      rs.length ≤ k ∧
      List.Sorted bySimilarityDesc rs ∧
      ∀ r ∈ rs, r.document ∈ db ∧
        r.document.vector.length = q.length ∧
        r.similarity = cosineSimilarity q r.document.vector ∧
        ((dotProduct q q = 0 ∨
            dotProduct r.document.vector r.document.vector = 0) →
          r.similarity = 0) := by
  unfold vdbSearch
  rw [if_neg hq]
  refine ⟨_, rfl, ?_, ?_, ?_⟩
  · rw [List.length_take]
    exact min_le_left _ _
  · exact List.Pairwise.sublist (List.take_sublist _ _)
      (List.sorted_insertionSort bySimilarityDesc _)
  · intro r hr
    have hr1 : r ∈ List.insertionSort bySimilarityDesc
        ((db.filter (fun d => d.vector.length == q.length)).map
          (fun d => ⟨d, cosineSimilarity q d.vector⟩)) :=
      List.mem_of_mem_take hr
    have hr2 := (List.perm_insertionSort bySimilarityDesc _).mem_iff.mp hr1
    rcases List.mem_map.mp hr2 with ⟨d, hd, rfl⟩
    rcases List.mem_filter.mp hd with ⟨hdb, hlen⟩
    have hlen2 : d.vector.length = q.length := by simpa using hlen
    refine ⟨hdb, hlen2, rfl, ?_⟩
    intro h0
    show cosineSimilarity q d.vector = 0
    unfold cosineSimilarity
    rw [if_neg (by simp [hlen2]), if_pos h0]

/-- Witness for C8 at the empty index with query `[1]` and `k = 0`. -/
theorem vdbSearch_spec_witness :
    (¬ ([(1 : ℝ)] : List ℝ).length = 0) ∧
    ∃ rs, vdbSearch [] [(1 : ℝ)] 0 = .ok rs ∧
      rs.length ≤ 0 ∧
      List.Sorted bySimilarityDesc rs ∧
      ∀ r ∈ rs, r.document ∈ ([] : List VDocument) ∧
        r.document.vector.length = ([(1 : ℝ)] : List ℝ).length ∧
        r.similarity = cosineSimilarity [(1 : ℝ)] r.document.vector ∧
        ((dotProduct [(1 : ℝ)] [(1 : ℝ)] = 0 ∨
            dotProduct r.document.vector r.document.vector = 0) →
          r.similarity = 0) :=
  ⟨by simp, vdbSearch_spec [] [(1 : ℝ)] 0 (by simp)⟩

/-! ## C5 — determinism of the license agent -/

/-- C5 counterexample: the license agent's output is NOT a pure function
of the components and the watchlist contents.  `isHighRiskLicense`
ranges over the `highRiskLicenses` Go map, whose iteration order is
unspecified and varies between runs; for the shortened form "GPL-3.0"
the matching description — which is embedded verbatim in the finding
text — differs between the source enumeration order and its reverse, so
two runs need not yield byte-identical findings. -/
theorem licenseAnalyze_depends_on_map_order :
    licenseAnalyze highRiskLicenses [gplShortComponent] ≠
      licenseAnalyze highRiskLicenses.reverse [gplShortComponent] := by
  decide

/-- Helper: `any` is invariant under permutation of the list. -/
theorem any_perm {α : Type} {l₁ l₂ : List α} (h : l₁.Perm l₂)
    (p : α → Bool) : l₁.any p = l₂.any p := by
  by_cases hx : l₂.any p = true
  · rcases List.any_eq_true.mp hx with ⟨a, ha, hpa⟩
    rw [hx]
    exact List.any_eq_true.mpr ⟨a, h.mem_iff.mpr ha, hpa⟩
  · have h2 : l₂.any p = false := by simpa using hx
    rw [h2, List.any_eq_false]
    intro a ha
    exact (List.any_eq_false.mp h2) a (h.mem_iff.mp ha)

/-- Helper: a guarded `findSome?` produces a value exactly when some
element satisfies the guard. -/
theorem findSome?_guard_isSome {α β : Type} (p : α → Bool) (g : α → β)
    (l : List α) :
    (l.findSome? (fun e => if p e then some (g e) else none)).isSome =
      l.any p := by
  induction l with
  | nil => simp
  | cons x xs ih =>
      by_cases hx : p x = true <;>
        simp [List.findSome?_cons, hx, ih]

/-- Helper: whether `isHighRiskLicense` hits depends only on which
entries the map holds, not on their enumeration order. -/
theorem isHighRiskLicense_isSome (order : List (String × String))
    (lic : String) :
    (isHighRiskLicense order lic).isSome =
      (order.any (fun e => e.1 == goTrimSpace lic) ||
        order.any
          (fun e => licenseEntryMatches (goToLower (goTrimSpace lic)) e)) := by
  unfold isHighRiskLicense
  cases hfind : order.find? (fun e => e.1 == goTrimSpace lic) with
  | some e =>
      have hany : order.any (fun e => e.1 == goTrimSpace lic) = true :=
        List.any_eq_true.mpr
          (List.find?_isSome.mp (by rw [hfind]; rfl))
      simp [hany]
  | none =>
      have hany : order.any (fun e => e.1 == goTrimSpace lic) = false := by
        rw [List.any_eq_false]
        intro a ha hpa
        have := List.find?_eq_none.mp hfind a ha
        exact this hpa
      simp only [hany, Bool.false_or]
      exact findSome?_guard_isSome _ (fun e => e.2) order

/-- Helper: the agent-name / severity projection of the per-component
check is invariant under the map enumeration order. -/
theorem licenseCheckComponent_proj (σ τ : List (String × String))
    (hσ : σ.Perm highRiskLicenses) (hτ : τ.Perm highRiskLicenses)
    (c : Component) :
    (licenseCheckComponent σ c).map (fun r => (r.agentName, r.severity)) =
      (licenseCheckComponent τ c).map (fun r => (r.agentName, r.severity)) := by
  unfold licenseCheckComponent
  by_cases hl : c.license = ""
  · simp [hl]
  · rw [if_neg hl, if_neg hl]
    have hsome : (isHighRiskLicense σ c.license).isSome =
        (isHighRiskLicense τ c.license).isSome := by
      rw [isHighRiskLicense_isSome, isHighRiskLicense_isSome,
        any_perm (hσ.trans hτ.symm), any_perm (hσ.trans hτ.symm)]
    cases h1 : isHighRiskLicense σ c.license with
    | some d1 =>
        cases h2 : isHighRiskLicense τ c.license with
        | some d2 => simp
        | none => rw [h1, h2] at hsome; simp at hsome
    | none =>
        cases h2 : isHighRiskLicense τ c.license with
        | some d2 => rw [h1, h2] at hsome; simp at hsome
        | none => simp

/-- C5 amended: the license agent's hit decisions and severities ARE
deterministic — for any two enumeration orders of the watchlist, the two
runs flag the same components in the same order with the same agent name
and severity — but the finding text is only deterministic up to the
embedded description, which depends on the map enumeration order (see
the counterexample). -/
theorem licenseAnalyze_shape_deterministic (σ τ : List (String × String))
    (comps : List Component) (hσ : σ.Perm highRiskLicenses)
    (hτ : τ.Perm highRiskLicenses) :
    (licenseAnalyze σ comps).map (fun r => (r.agentName, r.severity)) =
      (licenseAnalyze τ comps).map (fun r => (r.agentName, r.severity)) := by
  unfold licenseAnalyze
  rw [List.map_filterMap, List.map_filterMap]
  exact List.filterMap_congr
    (fun c _ => licenseCheckComponent_proj σ τ hσ hτ c)

/-- Witness for the amended C5 with the source enumeration order on both
sides and a concrete component list. -/
theorem licenseAnalyze_shape_deterministic_witness :
    highRiskLicenses.Perm highRiskLicenses ∧
    (licenseAnalyze highRiskLicenses [gplShortComponent]).map
        (fun r => (r.agentName, r.severity)) =
      (licenseAnalyze highRiskLicenses [gplShortComponent]).map
        (fun r => (r.agentName, r.severity)) :=
  ⟨List.Perm.refl _,
   licenseAnalyze_shape_deterministic highRiskLicenses highRiskLicenses
     [gplShortComponent] (List.Perm.refl _) (List.Perm.refl _)⟩

/-! ## C6 — severity assignment by license family -/

/-- C6: for every license string that is a watchlist hit, the agent's
severity follows the spec's table read top-down: the agpl family is
Critical; the gpl family excluding lgpl is High; the lgpl, mpl, epl,
eupl and cddl families (when no earlier case applies) are Medium; every
other watchlist hit is High.  Equivalently, `determineSeverity`
coincides with the spec-derived `specLicenseSeverity`. -/
theorem determineSeverity_by_family (lic : String)
    (h : (isHighRiskLicense highRiskLicenses lic).isSome = true) :
    determineSeverity lic = specLicenseSeverity lic ∧
    (goContains (goToLower lic) "agpl" = true →
      determineSeverity lic = "Critical") ∧
    (goContains (goToLower lic) "agpl" = false →
      goContains (goToLower lic) "gpl" = true →
      goContains (goToLower lic) "lgpl" = false →
      determineSeverity lic = "High") ∧
    (goContains (goToLower lic) "agpl" = false →
      (goContains (goToLower lic) "gpl" = false ∨
        goContains (goToLower lic) "lgpl" = true) →
      (goContains (goToLower lic) "lgpl" || goContains (goToLower lic) "mpl" ||
        goContains (goToLower lic) "epl" || goContains (goToLower lic) "eupl" ||
        goContains (goToLower lic) "cddl") = true →
      determineSeverity lic = "Medium") ∧
    (goContains (goToLower lic) "agpl" = false →
      (goContains (goToLower lic) "gpl" = false ∨
        goContains (goToLower lic) "lgpl" = true) →
      (goContains (goToLower lic) "lgpl" || goContains (goToLower lic) "mpl" ||
        goContains (goToLower lic) "epl" || goContains (goToLower lic) "eupl" ||
        goContains (goToLower lic) "cddl") = false →
      determineSeverity lic = "High") := by
  refine ⟨rfl, ?_, ?_, ?_, ?_⟩
  · intro h1
    unfold determineSeverity
    simp [h1]
  · intro h1 h2 h3
    unfold determineSeverity
    simp [h1, h2, h3]
  · intro h1 h2 h3
    unfold determineSeverity
    rcases h2 with h2 | h2 <;> simp [h1, h2, h3]
  · intro h1 h2 h3
    unfold determineSeverity
    simp only [Bool.or_eq_false_iff] at h3
    rcases h2 with h2 | h2 <;> simp_all

/-- Witness for C6 at the watchlist hit "AGPL-3.0-only". -/
theorem determineSeverity_by_family_witness :
    (isHighRiskLicense highRiskLicenses "AGPL-3.0-only").isSome = true ∧
    (determineSeverity "AGPL-3.0-only" = specLicenseSeverity "AGPL-3.0-only" ∧
      (goContains (goToLower "AGPL-3.0-only") "agpl" = true →
        determineSeverity "AGPL-3.0-only" = "Critical") ∧
      (goContains (goToLower "AGPL-3.0-only") "agpl" = false →
        goContains (goToLower "AGPL-3.0-only") "gpl" = true →
        goContains (goToLower "AGPL-3.0-only") "lgpl" = false →
        determineSeverity "AGPL-3.0-only" = "High") ∧
      (goContains (goToLower "AGPL-3.0-only") "agpl" = false →
        (goContains (goToLower "AGPL-3.0-only") "gpl" = false ∨
          goContains (goToLower "AGPL-3.0-only") "lgpl" = true) →
        (goContains (goToLower "AGPL-3.0-only") "lgpl" ||
          goContains (goToLower "AGPL-3.0-only") "mpl" ||
          goContains (goToLower "AGPL-3.0-only") "epl" ||
          goContains (goToLower "AGPL-3.0-only") "eupl" ||
          goContains (goToLower "AGPL-3.0-only") "cddl") = true →
        determineSeverity "AGPL-3.0-only" = "Medium") ∧
      (goContains (goToLower "AGPL-3.0-only") "agpl" = false →
        (goContains (goToLower "AGPL-3.0-only") "gpl" = false ∨
          goContains (goToLower "AGPL-3.0-only") "lgpl" = true) →
        (goContains (goToLower "AGPL-3.0-only") "lgpl" ||
          goContains (goToLower "AGPL-3.0-only") "mpl" ||
          goContains (goToLower "AGPL-3.0-only") "epl" ||
          goContains (goToLower "AGPL-3.0-only") "eupl" ||
          goContains (goToLower "AGPL-3.0-only") "cddl") = false →
        determineSeverity "AGPL-3.0-only" = "High")) :=
  ⟨by decide, determineSeverity_by_family "AGPL-3.0-only" (by decide)⟩

end SbomSentinel
